import Mathlib

/-!
Verification of the ledger aggregation and reporting core of the WB report
bot (`src/bot.py`).  The numeric fields of the Python code are modelled as
exact rationals; `None`/missing values are modelled with `Option`, matching
the `r.get(key, default) or fallback` access pattern of the source.  Each
Lean definition below is a direct translation of the corresponding Python
function; theorems about the frozen claims follow the definitions.
-/

/-- Python `x or 0` applied to an optional numeric field:
a missing or null field reads as `0` (and `0 or 0` is `0`). -/
def getNum (o : Option ℚ) : ℚ := o.getD 0

/-- One row of the detailed financial report (`reportDetailByPeriod`).
All fields are optional, mirroring `dict.get` access in `analyze_report`
and `check_alerts`. -/
structure LedgerRow where
  doc_type_name : Option String
  retail_price_withdisc_rub : Option ℚ
  ppvz_for_pay : Option ℚ
  delivery_rub : Option ℚ
  storage_fee : Option ℚ
  penalty : Option ℚ
  deduction : Option ℚ
  acceptance : Option ℚ
  rr_dt : Option String
  sa_name : Option String
  nm_id : Option String
deriving DecidableEq

/-- `r.get("doc_type_name", "")`. -/
def docType (r : LedgerRow) : String := r.doc_type_name.getD ""

/-- `(r.get("rr_dt") or "")[:10]`. -/
def rowDate (r : LedgerRow) : String := (r.rr_dt.getD "").take 10

/-- The nested `daily` mapping: date string, then metric name, to value;
`none` means the key is absent from the dict. -/
def Daily : Type := String → String → Option ℚ

/-- `daily[d][m] += v` on a `defaultdict(lambda: defaultdict(float))`:
creates the key with value `0` first when absent. -/
def dailyAdd (dly : Daily) (d m : String) (v : ℚ) : Daily :=
  fun d' m' => if d' = d ∧ m' = m then some ((dly d m).getD 0 + v) else dly d' m'

/-- The raw accumulators of `t = defaultdict(float)` that the row loop of
`analyze_report` touches. -/
@[ext]
structure Agg where
  sales_count : ℚ
  sales_sum : ℚ
  ppvz_sum : ℚ
  returns_count : ℚ
  returns_sum : ℚ
  delivery : ℚ
  storage : ℚ
  penalty : ℚ
  deduction : ℚ
  acceptance : ℚ
deriving DecidableEq

def initAgg : Agg := ⟨0, 0, 0, 0, 0, 0, 0, 0, 0, 0⟩

/-- The `if doc_type == "Продажа" ... elif doc_type == "Возврат"` branch of
the row loop of `analyze_report`. -/
def stepClass (a : Agg × Daily) (r : LedgerRow) : Agg × Daily :=
  if docType r = "Продажа" then
    ({ a.1 with
        sales_count := a.1.sales_count + 1,
        sales_sum := a.1.sales_sum + getNum r.retail_price_withdisc_rub,
        ppvz_sum := a.1.ppvz_sum + getNum r.ppvz_for_pay },
     dailyAdd (dailyAdd a.2 (rowDate r) "sales" (getNum r.retail_price_withdisc_rub))
       (rowDate r) "ppvz" (getNum r.ppvz_for_pay))
  else if docType r = "Возврат" then
    ({ a.1 with
        returns_count := a.1.returns_count + 1,
        returns_sum := a.1.returns_sum + getNum r.retail_price_withdisc_rub },
     a.2)
  else a

/-- The unconditional fee accumulation of the row loop of `analyze_report`. -/
def stepFees (a : Agg × Daily) (r : LedgerRow) : Agg × Daily :=
  ({ a.1 with
      delivery := a.1.delivery + getNum r.delivery_rub,
      storage := a.1.storage + getNum r.storage_fee,
      penalty := a.1.penalty + getNum r.penalty,
      deduction := a.1.deduction + getNum r.deduction,
      acceptance := a.1.acceptance + getNum r.acceptance },
   dailyAdd a.2 (rowDate r) "delivery" (getNum r.delivery_rub))

/-- One iteration of the row loop of `analyze_report`. -/
def step (a : Agg × Daily) (r : LedgerRow) : Agg × Daily :=
  stepFees (stepClass a r) r

/-- The `totals` dict returned by `analyze_report`, after the derived
metrics of lines 120-131 have been written. -/
structure Totals where
  sales_count : ℚ
  sales_sum : ℚ
  ppvz_sum : ℚ
  returns_count : ℚ
  returns_sum : ℚ
  delivery : ℚ
  storage : ℚ
  penalty : ℚ
  deduction : ℚ
  acceptance : ℚ
  wb_commission : ℚ
  total_deductions : ℚ
  net_payout : ℚ
  commission_pct : ℚ
  delivery_pct : ℚ
  total_ded_pct : ℚ
deriving DecidableEq

/-- The derived-metric epilogue of `analyze_report` (lines 119-131). -/
def mkTotals (t : Agg) : Totals :=
  let wb_commission := t.ppvz_sum - t.sales_sum
  let total_deductions :=
    wb_commission + t.delivery + t.storage + t.acceptance + t.deduction + t.penalty
  let net_payout :=
    t.ppvz_sum - t.delivery - t.storage - t.acceptance - t.deduction - t.penalty
  let s := t.sales_sum
  { sales_count := t.sales_count
    sales_sum := t.sales_sum
    ppvz_sum := t.ppvz_sum
    returns_count := t.returns_count
    returns_sum := t.returns_sum
    delivery := t.delivery
    storage := t.storage
    penalty := t.penalty
    deduction := t.deduction
    acceptance := t.acceptance
    wb_commission := wb_commission
    total_deductions := total_deductions
    net_payout := net_payout
    commission_pct := if s = 0 then 0 else wb_commission / s * 100
    delivery_pct := if s = 0 then 0 else t.delivery / s * 100
    total_ded_pct := if s = 0 then 0 else total_deductions / s * 100 }

/-- The value `{"totals": ..., "daily": ...}` returned by `analyze_report`. -/
structure Result where
  totals : Totals
  daily : Daily

/-- `analyze_report(rows)`: fold the row loop over the rows, then compute
the derived metrics. -/
def analyze_report (rows : List LedgerRow) : Result :=
  let a := rows.foldl step (initAgg, fun _ _ => none)
  ⟨mkTotals a.1, a.2⟩

/-- Per-row contribution to `sales_count`. -/
def cSalesCount (r : LedgerRow) : ℚ := if docType r = "Продажа" then 1 else 0

/-- Per-row contribution to `sales_sum`. -/
def cSalesSum (r : LedgerRow) : ℚ :=
  if docType r = "Продажа" then getNum r.retail_price_withdisc_rub else 0

/-- Per-row contribution to `ppvz_sum`. -/
def cPpvzSum (r : LedgerRow) : ℚ :=
  if docType r = "Продажа" then getNum r.ppvz_for_pay else 0

/-- Per-row contribution to `returns_count`. -/
def cReturnsCount (r : LedgerRow) : ℚ := if docType r = "Возврат" then 1 else 0

/-- Per-row contribution to `returns_sum`. -/
def cReturnsSum (r : LedgerRow) : ℚ :=
  if docType r = "Возврат" then getNum r.retail_price_withdisc_rub else 0

/-- Merge one optional per-row contribution into an optional dict value,
the way `defaultdict` accumulation does. -/
def optAdd (o : Option ℚ) (c : Option ℚ) : Option ℚ :=
  match c with
  | none => o
  | some v => some (o.getD 0 + v)

/-- The contribution of one row to the `daily[d][m]` cell: `delivery` for
every row at its date, `sales` and `ppvz` additionally for sale rows. -/
def dailyContrib (r : LedgerRow) (d m : String) : Option ℚ :=
  if d = rowDate r then
    if m = "delivery" then some (getNum r.delivery_rub)
    else if docType r = "Продажа" ∧ m = "sales" then
      some (getNum r.retail_price_withdisc_rub)
    else if docType r = "Продажа" ∧ m = "ppvz" then some (getNum r.ppvz_for_pay)
    else none
  else none

/-- Replace each missing or null field of a row by the value the getters of
`analyze_report` default it to: numeric fields by `0`, the timestamp and the
document type by the empty string. -/
def normalizeRow (r : LedgerRow) : LedgerRow :=
  { doc_type_name := some (r.doc_type_name.getD "")
    retail_price_withdisc_rub := some (getNum r.retail_price_withdisc_rub)
    ppvz_for_pay := some (getNum r.ppvz_for_pay)
    delivery_rub := some (getNum r.delivery_rub)
    storage_fee := some (getNum r.storage_fee)
    penalty := some (getNum r.penalty)
    deduction := some (getNum r.deduction)
    acceptance := some (getNum r.acceptance)
    rr_dt := some (r.rr_dt.getD "")
    sa_name := r.sa_name
    nm_id := r.nm_id }

/-- One record of the orders feed, as accessed by `analyze_positions`. -/
structure OrderRec where
  nmId : Option String
  subject : Option String
  category : Option String
  isCancel : Option Bool
deriving DecidableEq

/-- One record of the sales feed, as accessed by `analyze_positions`. -/
structure SaleRec where
  nmId : Option String
  subject : Option String
  saleID : Option String
  priceWithDisc : Option ℚ
deriving DecidableEq

/-- The per-item record of `analyze_positions`; the lambda default of the
`defaultdict` gives all-zero counters and an empty name. -/
structure Position where
  ordered : ℕ
  sold : ℕ
  returned : ℕ
  cancelled : ℕ
  revenue : ℚ
  name : String
deriving DecidableEq

def zeroPos : Position := ⟨0, 0, 0, 0, 0, ""⟩

/-- The positions mapping; `none` means the item key is absent. -/
def PMap : Type := String → Option Position

/-- Reading `pos[nm]` on the `defaultdict`. -/
def posGet (p : PMap) (nm : String) : Position := (p nm).getD zeroPos

/-- Writing the entry for `nm` back (any `pos[nm]` access materialises it). -/
def posSet (p : PMap) (nm : String) (v : Position) : PMap :=
  fun k => if k = nm then some v else p k

/-- `str(o.get("nmId", "unknown"))`. -/
def orderKey (o : OrderRec) : String := o.nmId.getD "unknown"

/-- `o.get("subject", "") or o.get("category", "") or nm`. -/
def orderName (o : OrderRec) (nm : String) : String :=
  if o.subject.getD "" ≠ "" then o.subject.getD ""
  else if o.category.getD "" ≠ "" then o.category.getD ""
  else nm

/-- One iteration of the orders loop of `analyze_positions`. -/
def orderStep (p : PMap) (o : OrderRec) : PMap :=
  let nm := orderKey o
  let cur := posGet p nm
  let cur := { cur with name := orderName o nm, ordered := cur.ordered + 1 }
  let cur :=
    if o.isCancel.getD false then { cur with cancelled := cur.cancelled + 1 } else cur
  posSet p nm cur

def saleKey (s : SaleRec) : String := s.nmId.getD "unknown"

/-- Python `s.startswith(p)`: the characters of `p` are a prefix of the
characters of `s`. -/
def strStartsWith (s p : String) : Bool := p.data.isPrefixOf s.data

/-- `s.get("subject", "") or pos[nm]["name"] or nm`. -/
def saleName (s : SaleRec) (curName nm : String) : String :=
  if s.subject.getD "" ≠ "" then s.subject.getD ""
  else if curName ≠ "" then curName
  else nm

/-- One iteration of the sales loop of `analyze_positions`. -/
def saleStep (p : PMap) (s : SaleRec) : PMap :=
  let nm := saleKey s
  let cur := posGet p nm
  let cur := { cur with name := saleName s cur.name nm }
  let stype := s.saleID.getD ""
  let cur :=
    if strStartsWith stype "S" then
      { cur with sold := cur.sold + 1, revenue := cur.revenue + getNum s.priceWithDisc }
    else if strStartsWith stype "R" then
      { cur with returned := cur.returned + 1 }
    else cur
  posSet p nm cur

/-- `analyze_positions(orders, sales)`: fold the orders loop, then the
sales loop, over an initially empty mapping. -/
def analyze_positions (orders : List OrderRec) (sales : List SaleRec) : PMap :=
  sales.foldl saleStep (orders.foldl orderStep (fun _ => none))

/-- One alert of `check_alerts`, keeping the data interpolated into the
alert string (amount, date, item label) and which branch produced it. -/
inductive Alert where
  | penaltyAlert (amount : ℚ) (dt : String) (nm : String)
  | deductionAlert (amount : ℚ) (dt : String)
deriving DecidableEq

/-- `r.get("sa_name") or r.get("nm_id") or ""`. -/
def alertLabel (r : LedgerRow) : String :=
  if r.sa_name.getD "" ≠ "" then r.sa_name.getD "" else r.nm_id.getD ""

/-- `check_alerts(rows, threshold)`: one pass over the rows, appending a
penalty alert when `penalty > 0` and a large-deduction alert when
`deduction >= threshold`. -/
def check_alerts (rows : List LedgerRow) (threshold : ℚ) : List Alert :=
  rows.foldl
    (fun alerts r =>
      let alerts :=
        if 0 < getNum r.penalty then
          alerts ++ [Alert.penaltyAlert (getNum r.penalty) (rowDate r) (alertLabel r)]
        else alerts
      let alerts :=
        if threshold ≤ getNum r.deduction then
          alerts ++ [Alert.deductionAlert (getNum r.deduction) (rowDate r)]
        else alerts
      alerts)
    []

/-- The alerts a single row contributes, in emission order. -/
def rowAlerts (threshold : ℚ) (r : LedgerRow) : List Alert :=
  (if 0 < getNum r.penalty then
    [Alert.penaltyAlert (getNum r.penalty) (rowDate r) (alertLabel r)]
  else []) ++
  (if threshold ≤ getNum r.deduction then
    [Alert.deductionAlert (getNum r.deduction) (rowDate r)]
  else [])

/-- The structural content of one delta cell of `format_compare_message`:
which branch of `delta(new, old)` fired, and the percentage it printed. -/
inductive Delta where
  | newItem
  | noChange
  | change (pct : ℚ)
deriving DecidableEq

/-- `delta(new, old)` of `format_compare_message`. -/
def delta (n o : ℚ) : Delta :=
  if o = 0 then (if 0 < n then Delta.newItem else Delta.noChange)
  else Delta.change ((n - o) / |o| * 100)

/-- The final verdict block of `format_compare_message` (`if n1 and n2`). -/
inductive Verdict where
  | period2 (diff : ℚ)
  | period1 (diff : ℚ)
  | tie
  | noVerdict
deriving DecidableEq

def verdict (n1 n2 : ℚ) : Verdict :=
  if n1 ≠ 0 ∧ n2 ≠ 0 then
    if n1 < n2 then Verdict.period2 (n2 - n1)
    else if n2 < n1 then Verdict.period1 (n1 - n2)
    else Verdict.tie
  else Verdict.noVerdict

/-- The structural content of the comparison message: the delta cell of
each compared metric row and the final verdict. -/
structure CompareResult where
  sales_sum_d : Delta
  sales_count_d : Delta
  returns_count_d : Delta
  wb_commission_d : Delta
  delivery_d : Delta
  storage_d : Delta
  penalty_d : Delta
  net_payout_d : Delta
  winner : Verdict
deriving DecidableEq

/-- `format_compare_message(a1, a2, ...)`, abstracted to the delta cells it
renders (`delta(v2, v1)` per compared key) and its final verdict. -/
def format_compare_message (t1 t2 : Totals) : CompareResult :=
  { sales_sum_d := delta t2.sales_sum t1.sales_sum
    sales_count_d := delta t2.sales_count t1.sales_count
    returns_count_d := delta t2.returns_count t1.returns_count
    wb_commission_d := delta t2.wb_commission t1.wb_commission
    delivery_d := delta t2.delivery t1.delivery
    storage_d := delta t2.storage t1.storage
    penalty_d := delta t2.penalty t1.penalty
    net_payout_d := delta t2.net_payout t1.net_payout
    winner := verdict t1.net_payout t2.net_payout }

/-- The counter components of an optional positions entry. -/
def ctrs (op : Option Position) : ℕ × ℕ × ℕ × ℕ × ℚ :=
  ((op.getD zeroPos).ordered, (op.getD zeroPos).sold, (op.getD zeroPos).cancelled,
   (op.getD zeroPos).returned, (op.getD zeroPos).revenue)

theorem step_sales_count (a : Agg × Daily) (r : LedgerRow) :
    (step a r).1.sales_count = a.1.sales_count + cSalesCount r := by
  simp only [step, stepFees, stepClass, cSalesCount]
  split_ifs <;> simp

theorem step_sales_sum (a : Agg × Daily) (r : LedgerRow) :
    (step a r).1.sales_sum = a.1.sales_sum + cSalesSum r := by
  simp only [step, stepFees, stepClass, cSalesSum]
  split_ifs <;> simp

theorem step_ppvz_sum (a : Agg × Daily) (r : LedgerRow) :
    (step a r).1.ppvz_sum = a.1.ppvz_sum + cPpvzSum r := by
  simp only [step, stepFees, stepClass, cPpvzSum]
  split_ifs <;> simp

theorem step_returns_count (a : Agg × Daily) (r : LedgerRow) :
    (step a r).1.returns_count = a.1.returns_count + cReturnsCount r := by
  simp only [step, stepFees, stepClass, cReturnsCount]
  split_ifs <;> simp_all

theorem step_returns_sum (a : Agg × Daily) (r : LedgerRow) :
    (step a r).1.returns_sum = a.1.returns_sum + cReturnsSum r := by
  simp only [step, stepFees, stepClass, cReturnsSum]
  split_ifs <;> simp_all

theorem step_delivery (a : Agg × Daily) (r : LedgerRow) :
    (step a r).1.delivery = a.1.delivery + getNum r.delivery_rub := by
  simp only [step, stepFees, stepClass]
  split_ifs <;> simp

theorem step_storage (a : Agg × Daily) (r : LedgerRow) :
    (step a r).1.storage = a.1.storage + getNum r.storage_fee := by
  simp only [step, stepFees, stepClass]
  split_ifs <;> simp

theorem step_penalty (a : Agg × Daily) (r : LedgerRow) :
    (step a r).1.penalty = a.1.penalty + getNum r.penalty := by
  simp only [step, stepFees, stepClass]
  split_ifs <;> simp

theorem step_deduction (a : Agg × Daily) (r : LedgerRow) :
    (step a r).1.deduction = a.1.deduction + getNum r.deduction := by
  simp only [step, stepFees, stepClass]
  split_ifs <;> simp

theorem step_acceptance (a : Agg × Daily) (r : LedgerRow) :
    (step a r).1.acceptance = a.1.acceptance + getNum r.acceptance := by
  simp only [step, stepFees, stepClass]
  split_ifs <;> simp

/-- A projection that grows additively at each step of the row loop equals
its initial value plus the sum of the per-row contributions. -/
theorem foldl_step_proj (proj : Agg × Daily → ℚ) (f : LedgerRow → ℚ)
    (h : ∀ a r, proj (step a r) = proj a + f r) :
    ∀ (rows : List LedgerRow) (a : Agg × Daily),
      proj (rows.foldl step a) = proj a + (rows.map f).sum := by
  intro rows
  induction rows with
  | nil => intro a; simp
  | cons r rows ih =>
      intro a
      simp only [List.foldl_cons, List.map_cons, List.sum_cons]
      rw [ih, h, add_assoc]

/-- The raw accumulators after the row loop are permutation-invariant. -/
theorem agg_perm (rows₁ rows₂ : List LedgerRow) (h : rows₁.Perm rows₂) :
    (rows₁.foldl step (initAgg, fun _ _ => none)).1 =
      (rows₂.foldl step (initAgg, fun _ _ => none)).1 := by
  have e : ∀ (proj : Agg × Daily → ℚ) (f : LedgerRow → ℚ),
      (∀ a r, proj (step a r) = proj a + f r) →
      proj (rows₁.foldl step (initAgg, fun _ _ => none)) =
        proj (rows₂.foldl step (initAgg, fun _ _ => none)) := by
    intro proj f hf
    rw [foldl_step_proj proj f hf, foldl_step_proj proj f hf, (h.map f).sum_eq]
  exact Agg.ext
    (e (fun a => a.1.sales_count) cSalesCount step_sales_count)
    (e (fun a => a.1.sales_sum) cSalesSum step_sales_sum)
    (e (fun a => a.1.ppvz_sum) cPpvzSum step_ppvz_sum)
    (e (fun a => a.1.returns_count) cReturnsCount step_returns_count)
    (e (fun a => a.1.returns_sum) cReturnsSum step_returns_sum)
    (e (fun a => a.1.delivery) (fun r => getNum r.delivery_rub) step_delivery)
    (e (fun a => a.1.storage) (fun r => getNum r.storage_fee) step_storage)
    (e (fun a => a.1.penalty) (fun r => getNum r.penalty) step_penalty)
    (e (fun a => a.1.deduction) (fun r => getNum r.deduction) step_deduction)
    (e (fun a => a.1.acceptance) (fun r => getNum r.acceptance) step_acceptance)

theorem step_daily (a : Agg × Daily) (r : LedgerRow) (d m : String) :
    (step a r).2 d m = optAdd (a.2 d m) (dailyContrib r d m) := by
  by_cases hs : docType r = "Продажа" <;>
    by_cases hv : docType r = "Возврат" <;>
    by_cases hd : d = rowDate r <;>
    by_cases h1 : m = "delivery" <;>
    by_cases h2 : m = "sales" <;>
    by_cases h3 : m = "ppvz" <;>
    simp_all [step, stepFees, stepClass, dailyAdd, dailyContrib, optAdd]

theorem foldl_daily (rows : List LedgerRow) :
    ∀ (a : Agg × Daily) (d m : String),
      (rows.foldl step a).2 d m =
        List.foldl optAdd (a.2 d m) (rows.map (fun r => dailyContrib r d m)) := by
  induction rows with
  | nil => intro a d m; simp
  | cons r rows ih =>
      intro a d m
      simp only [List.foldl_cons, List.map_cons]
      rw [ih, step_daily]

theorem foldl_optAdd (l : List (Option ℚ)) :
    ∀ o : Option ℚ,
      List.foldl optAdd o l =
        if l.filterMap id = [] then o
        else some (o.getD 0 + (l.filterMap id).sum) := by
  induction l with
  | nil => intro o; simp
  | cons c l ih =>
      intro o
      cases c with
      | none =>
          rw [List.foldl_cons, ih]
          simp [optAdd]
      | some v =>
          rw [List.foldl_cons, ih]
          by_cases hl : l.filterMap id = []
          · simp [hl, optAdd]
          · simp [hl, optAdd, add_assoc]

/-- Closed form of the `daily` mapping: the cell is present exactly when
some row contributes to it, and then holds the sum of the contributions. -/
theorem daily_closed (rows : List LedgerRow) (d m : String) :
    (analyze_report rows).daily d m =
      if rows.filterMap (fun r => dailyContrib r d m) = [] then none
      else some ((rows.filterMap (fun r => dailyContrib r d m)).sum) := by
  show (rows.foldl step (initAgg, fun _ _ => none)).2 d m = _
  rw [foldl_daily]
  rw [foldl_optAdd]
  simp [List.filterMap_map]

theorem daily_perm (rows₁ rows₂ : List LedgerRow) (h : rows₁.Perm rows₂)
    (d m : String) :
    (analyze_report rows₁).daily d m = (analyze_report rows₂).daily d m := by
  rw [daily_closed, daily_closed]
  have hp := h.filterMap (fun r => dailyContrib r d m)
  by_cases hA : rows₁.filterMap (fun r => dailyContrib r d m) = []
  · have hB : rows₂.filterMap (fun r => dailyContrib r d m) = [] :=
      ((hA ▸ hp).symm).eq_nil
    simp [hA, hB]
  · have hB : rows₂.filterMap (fun r => dailyContrib r d m) ≠ [] := by
      intro hB
      exact hA (hB ▸ hp).eq_nil
    simp [hA, hB, hp.sum_eq]

/-- An order whose key is a different item leaves the entry unchanged. -/
theorem foldl_orderStep_other (nm : String) :
    ∀ (orders : List OrderRec), (∀ o ∈ orders, orderKey o ≠ nm) →
      ∀ p : PMap, (orders.foldl orderStep p) nm = p nm := by
  intro orders
  induction orders with
  | nil => intro _ p; rfl
  | cons o os ih =>
      intro h p
      rw [List.foldl_cons, ih (fun x hx => h x (List.mem_cons_of_mem o hx))]
      simp only [orderStep, posSet]
      rw [if_neg]
      exact fun e => h o (List.mem_cons_self o os) e.symm

/-- Sales whose identifier starts with neither "S" nor "R" never change the
counters of their item, only its name. -/
theorem foldl_saleStep_ctrs (nm : String) :
    ∀ (sales : List SaleRec),
      (∀ s ∈ sales, saleKey s = nm →
        ¬strStartsWith (s.saleID.getD "") "S" ∧
        ¬strStartsWith (s.saleID.getD "") "R") →
      ∀ p : PMap, ctrs ((sales.foldl saleStep p) nm) = ctrs (p nm) := by
  intro sales
  induction sales with
  | nil => intro _ p; rfl
  | cons s ss ih =>
      intro h p
      rw [List.foldl_cons, ih (fun x hx => h x (List.mem_cons_of_mem s hx))]
      by_cases hk : saleKey s = nm
      · obtain ⟨hS, hR⟩ := h s (List.mem_cons_self s ss) hk
        simp [saleStep, posSet, posGet, ctrs, hk, hS, hR]
      · simp only [saleStep, posSet]
        rw [if_neg]
        exact fun e => hk e.symm

/-- Any sale of an item materialises that item's entry, and entries are
never removed. -/
theorem foldl_saleStep_mem (nm : String) :
    ∀ (sales : List SaleRec) (p : PMap),
      (p nm ≠ none ∨ ∃ s ∈ sales, saleKey s = nm) →
      (sales.foldl saleStep p) nm ≠ none := by
  intro sales
  induction sales with
  | nil =>
      intro p h
      rcases h with h | ⟨s, hs, _⟩
      · exact h
      · exact absurd hs (List.not_mem_nil s)
  | cons s ss ih =>
      intro p h
      rw [List.foldl_cons]
      by_cases hk : saleKey s = nm
      · refine ih _ (Or.inl ?_)
        simp [saleStep, posSet, hk]
      · refine ih _ ?_
        rcases h with h | ⟨x, hx, hxk⟩
        · refine Or.inl ?_
          simp only [saleStep, posSet]
          rw [if_neg (fun e => hk e.symm)]
          exact h
        · rcases List.mem_cons.mp hx with rfl | hx'
          · exact absurd hxk hk
          · exact Or.inr ⟨x, hx', hxk⟩

/-- Each loop iteration of `check_alerts` appends exactly the alerts of the
current row. -/
theorem check_alerts_eq_flatMap (threshold : ℚ) :
    ∀ (rows : List LedgerRow) (init : List Alert),
      rows.foldl
        (fun alerts r =>
          let alerts :=
            if 0 < getNum r.penalty then
              alerts ++ [Alert.penaltyAlert (getNum r.penalty) (rowDate r) (alertLabel r)]
            else alerts
          let alerts :=
            if threshold ≤ getNum r.deduction then
              alerts ++ [Alert.deductionAlert (getNum r.deduction) (rowDate r)]
            else alerts
          alerts) init
        = init ++ rows.flatMap (rowAlerts threshold) := by
  intro rows
  induction rows with
  | nil => intro init; simp
  | cons r rs ih =>
      intro init
      rw [List.foldl_cons, ih, List.flatMap_cons]
      simp only [rowAlerts]
      split_ifs <;> simp

theorem delta_self (v : ℚ) :
    delta v v = if v = 0 then Delta.noChange else Delta.change 0 := by
  unfold delta
  split_ifs with h h2
  · exact absurd (h ▸ h2) (lt_irrefl 0)
  · rfl
  · simp

theorem verdict_self (v : ℚ) :
    verdict v v = if v = 0 then Verdict.noVerdict else Verdict.tie := by
  unfold verdict
  split_ifs with h h2 <;> simp_all

theorem take_ten_date : ("2025-01-01" : String).take 10 = "2025-01-01" := by decide

theorem take_ten_date2 : ("2025-01-02" : String).take 10 = "2025-01-02" := by decide

theorem take_ten_empty : ("" : String).take 10 = "" := by decide

theorem ne_sales_delivery : ("sales" : String) = "delivery" ↔ False := by decide

theorem ne_sales_ppvz : ("sales" : String) = "ppvz" ↔ False := by decide

theorem ne_vozvrat_sale : ("Возврат" : String) = "Продажа" ↔ False := by decide

theorem ne_sku_empty : ("sku" : String) = "" ↔ False := by decide

/-- A row whose contribution to a daily cell is present forces the cell to
be present in the result. -/
theorem daily_mem_ne_none (rows : List LedgerRow) (d m : String) (r : LedgerRow)
    (hr : r ∈ rows) (h : dailyContrib r d m ≠ none) :
    (analyze_report rows).daily d m ≠ none := by
  rw [daily_closed]
  have hne : rows.filterMap (fun x => dailyContrib x d m) ≠ [] := fun hnil =>
    h (List.filterMap_eq_nil_iff.mp hnil r hr)
  simp [hne]

/-- C1: for every row sequence (hence for every ordering of the rows), the
totals returned by `analyze_report` satisfy
`total_deductions = wb_commission + delivery + storage + acceptance +
deduction + penalty` with `wb_commission = ppvz_sum - sales_sum`, exactly. -/
theorem C1_total_deductions_identity (rows : List LedgerRow) :
    (analyze_report rows).totals.total_deductions =
      (analyze_report rows).totals.wb_commission +
      (analyze_report rows).totals.delivery +
      (analyze_report rows).totals.storage +
      (analyze_report rows).totals.acceptance +
      (analyze_report rows).totals.deduction +
      (analyze_report rows).totals.penalty ∧
    (analyze_report rows).totals.wb_commission =
      (analyze_report rows).totals.ppvz_sum -
      (analyze_report rows).totals.sales_sum :=
  ⟨rfl, rfl⟩

/-- C2: for every row sequence, the totals returned by `analyze_report`
satisfy `net_payout = ppvz_sum - delivery - storage - acceptance -
deduction - penalty`. -/
theorem C2_net_payout_identity (rows : List LedgerRow) :
    (analyze_report rows).totals.net_payout =
      (analyze_report rows).totals.ppvz_sum -
      (analyze_report rows).totals.delivery -
      (analyze_report rows).totals.storage -
      (analyze_report rows).totals.acceptance -
      (analyze_report rows).totals.deduction -
      (analyze_report rows).totals.penalty :=
  rfl

/-- C3: the three percentage metrics are `0` whenever the accumulated
`sales_sum` is `0` (the division is guarded, the function is total, so no
division-by-zero fault can occur), and otherwise equal the respective
amount divided by `sales_sum` times 100. -/
theorem C3_pct_guarded (rows : List LedgerRow) :
    (analyze_report rows).totals.commission_pct =
      (if (analyze_report rows).totals.sales_sum = 0 then 0
       else (analyze_report rows).totals.wb_commission /
         (analyze_report rows).totals.sales_sum * 100) ∧
    (analyze_report rows).totals.delivery_pct =
      (if (analyze_report rows).totals.sales_sum = 0 then 0
       else (analyze_report rows).totals.delivery /
         (analyze_report rows).totals.sales_sum * 100) ∧
    (analyze_report rows).totals.total_ded_pct =
      (if (analyze_report rows).totals.sales_sum = 0 then 0
       else (analyze_report rows).totals.total_deductions /
         (analyze_report rows).totals.sales_sum * 100) :=
  ⟨rfl, rfl, rfl⟩

/-- C4: `analyze_report` never fails on malformed rows: replacing every
missing/null numeric field by `0` and a missing timestamp by the empty
string leaves the result unchanged (so such fields contribute `0` and such
rows land in the empty-string day bucket); a row without a date books its
delivery fee under the `""` key; and on the empty input the function still
returns a well-defined all-zero totals mapping and an empty daily mapping. -/
theorem C4_defensive_defaults (rows : List LedgerRow) (r : LedgerRow) :
    analyze_report (rows.map normalizeRow) = analyze_report rows ∧
    (analyze_report [{ r with rr_dt := none }]).daily "" "delivery" =
      some (getNum r.delivery_rub) ∧
    (analyze_report []).totals = ⟨0, 0, 0, 0, 0, 0, 0, 0, 0, 0, 0, 0, 0, 0, 0, 0⟩ ∧
    (analyze_report []).daily = fun _ _ => none := by
  refine ⟨?_, ?_, ?_, rfl⟩
  · unfold analyze_report
    rw [List.foldl_map]
    rfl
  · rw [daily_closed]
    simp [dailyContrib, rowDate, take_ten_empty]
  · norm_num [analyze_report, mkTotals, initAgg]

/-- C5: aggregation is deterministic (it is a pure function: running it
twice on the same list gives the same value), and permuting the rows
changes neither the totals nor any value of the daily mapping. -/
theorem C5_perm_invariant (rows₁ rows₂ : List LedgerRow)
    (h : rows₁.Perm rows₂) :
    analyze_report rows₁ = analyze_report rows₁ ∧
    (analyze_report rows₁).totals = (analyze_report rows₂).totals ∧
    ∀ d m, (analyze_report rows₁).daily d m = (analyze_report rows₂).daily d m :=
  ⟨rfl, congrArg mkTotals (agg_perm rows₁ rows₂ h), daily_perm rows₁ rows₂ h⟩

/-- C5 witness: a concrete two-row list and its transposition satisfy the
permutation hypothesis and get equal totals. -/
theorem C5_perm_invariant_witness :
    ([⟨some "Продажа", some 1000, some 800, some 30, none, none, none, none,
        some "2025-01-01", none, none⟩,
      ⟨some "Возврат", some 50, none, none, some 7, some 12, none, none,
        some "2025-01-02", none, none⟩] : List LedgerRow).Perm
      [⟨some "Возврат", some 50, none, none, some 7, some 12, none, none,
        some "2025-01-02", none, none⟩,
       ⟨some "Продажа", some 1000, some 800, some 30, none, none, none, none,
        some "2025-01-01", none, none⟩] ∧
    (analyze_report
      [⟨some "Продажа", some 1000, some 800, some 30, none, none, none, none,
        some "2025-01-01", none, none⟩,
       ⟨some "Возврат", some 50, none, none, some 7, some 12, none, none,
        some "2025-01-02", none, none⟩]).totals =
    (analyze_report
      [⟨some "Возврат", some 50, none, none, some 7, some 12, none, none,
        some "2025-01-02", none, none⟩,
       ⟨some "Продажа", some 1000, some 800, some 30, none, none, none, none,
        some "2025-01-01", none, none⟩]).totals :=
  ⟨List.Perm.swap _ _ _,
   (C5_perm_invariant _ _ (List.Perm.swap _ _ _)).2.1⟩

/-- C6 counterexample: the claim says the first non-empty name wins and
later non-empty names do not override it.  With one order naming item "7"
as "A" and one later sale naming it "B", `analyze_positions` displays "B",
not the first non-empty name "A": a later non-empty sale name overrides. -/
theorem C6_counterexample :
    (posGet (analyze_positions
        [⟨some "7", some "A", none, none⟩]
        [⟨some "7", some "B", some "X", none⟩]) "7").name = "B" ∧
    ("B" : String) ≠ "A" := by
  constructor
  · decide
  · decide

/-- C6 amended: orders are folded before sales, but name resolution is
last-writer-wins, not first-non-empty-wins: every order overwrites the
display name with its subject, else its category, else the item identifier;
every sale overwrites it with its subject when that is non-empty and keeps
the current name otherwise, falling back to the identifier when the current
name is empty. -/
theorem C6_name_resolution (orders : List OrderRec) (sales : List SaleRec) :
    analyze_positions orders sales =
      sales.foldl saleStep (orders.foldl orderStep (fun _ => none)) ∧
    (∀ (p : PMap) (o : OrderRec),
      (posGet (orderStep p o) (orderKey o)).name =
        (if o.subject.getD "" ≠ "" then o.subject.getD ""
         else if o.category.getD "" ≠ "" then o.category.getD ""
         else orderKey o)) ∧
    (∀ (p : PMap) (s : SaleRec),
      (posGet (saleStep p s) (saleKey s)).name =
        (if s.subject.getD "" ≠ "" then s.subject.getD ""
         else if (posGet p (saleKey s)).name ≠ "" then (posGet p (saleKey s)).name
         else saleKey s)) := by
  refine ⟨rfl, ?_, ?_⟩
  · intro p o
    by_cases hc : o.isCancel.getD false <;>
      simp [orderStep, orderName, posGet, posSet, hc]
  · intro p s
    by_cases hS : strStartsWith (s.saleID.getD "") "S" = true <;>
      by_cases hR : strStartsWith (s.saleID.getD "") "R" = true <;>
      simp [saleStep, saleName, posGet, posSet, hS, hR]

/-- C7: `check_alerts` emits, in input row order, one penalty alert per row
with `penalty > 0` and independently one large-deduction alert per row with
`deduction >= threshold`; the given row with penalty 1200 and deduction
4000 at threshold 5000 yields exactly the one penalty alert, and raising
the deduction to 5000 yields exactly the two alerts. -/
theorem C7_alert_emission (rows : List LedgerRow) (threshold : ℚ) :
    check_alerts rows threshold = rows.flatMap (rowAlerts threshold) ∧
    check_alerts [⟨none, none, none, none, none, some 1200, some 4000, none,
        some "2025-01-01", some "sku", none⟩] 5000 =
      [Alert.penaltyAlert 1200 "2025-01-01" "sku"] ∧
    check_alerts [⟨none, none, none, none, none, some 1200, some 5000, none,
        some "2025-01-01", some "sku", none⟩] 5000 =
      [Alert.penaltyAlert 1200 "2025-01-01" "sku",
       Alert.deductionAlert 5000 "2025-01-01"] := by
  refine ⟨?_, ?_, ?_⟩
  · unfold check_alerts
    rw [check_alerts_eq_flatMap]
    simp
  · norm_num [check_alerts, getNum, rowDate, alertLabel, take_ten_date,
      ne_sku_empty]
  · norm_num [check_alerts, getNum, rowDate, alertLabel, take_ten_date,
      ne_sku_empty]

/-- C8 counterexample: comparing the all-zero aggregation result (the
result of `analyze_report` on the empty input) against itself yields the
no-change marker, not a 0% delta, on every metric, and no verdict at all
rather than a tie, because the verdict branch requires both net payouts to
be nonzero. -/
theorem C8_counterexample :
    (format_compare_message (analyze_report []).totals
        (analyze_report []).totals).sales_sum_d = Delta.noChange ∧
    Delta.noChange ≠ Delta.change 0 ∧
    (format_compare_message (analyze_report []).totals
        (analyze_report []).totals).winner = Verdict.noVerdict ∧
    Verdict.noVerdict ≠ Verdict.tie := by
  refine ⟨?_, by decide, ?_, by decide⟩
  · norm_num [format_compare_message, delta, analyze_report, mkTotals, initAgg]
  · norm_num [format_compare_message, verdict, analyze_report, mkTotals, initAgg]

/-- C8 amended: comparing a totals mapping against itself yields, on every
compared metric, a 0% delta when that metric is nonzero and the no-change
marker when it is 0; the final verdict is a tie when the net payout is
nonzero and is absent when the net payout is 0. -/
theorem C8_self_compare (t : Totals) :
    (format_compare_message t t).sales_sum_d =
      (if t.sales_sum = 0 then Delta.noChange else Delta.change 0) ∧
    (format_compare_message t t).sales_count_d =
      (if t.sales_count = 0 then Delta.noChange else Delta.change 0) ∧
    (format_compare_message t t).returns_count_d =
      (if t.returns_count = 0 then Delta.noChange else Delta.change 0) ∧
    (format_compare_message t t).wb_commission_d =
      (if t.wb_commission = 0 then Delta.noChange else Delta.change 0) ∧
    (format_compare_message t t).delivery_d =
      (if t.delivery = 0 then Delta.noChange else Delta.change 0) ∧
    (format_compare_message t t).storage_d =
      (if t.storage = 0 then Delta.noChange else Delta.change 0) ∧
    (format_compare_message t t).penalty_d =
      (if t.penalty = 0 then Delta.noChange else Delta.change 0) ∧
    (format_compare_message t t).net_payout_d =
      (if t.net_payout = 0 then Delta.noChange else Delta.change 0) ∧
    (format_compare_message t t).winner =
      (if t.net_payout = 0 then Verdict.noVerdict else Verdict.tie) :=
  ⟨delta_self _, delta_self _, delta_self _, delta_self _, delta_self _,
   delta_self _, delta_self _, delta_self _, verdict_self _⟩

/-- C9 counterexample: a day seen only on a non-sale row is present in the
daily mapping (its delivery entry exists) but carries no `sales` entry, so
the daily mapping does not cover {sales, remitted, delivery} for every day
appearing in the input. -/
theorem C9_counterexample :
    (analyze_report [⟨some "Возврат", some 50, none, none, none, none, none,
        none, some "2025-01-01", none, none⟩]).daily "2025-01-01" "sales"
      = none ∧
    (analyze_report [⟨some "Возврат", some 50, none, none, none, none, none,
        none, some "2025-01-01", none, none⟩]).daily "2025-01-01" "delivery"
      = some 0 := by
  constructor
  · rw [daily_closed]
    norm_num [dailyContrib, rowDate, docType, take_ten_date, ne_sales_delivery,
      ne_sales_ppvz, ne_vozvrat_sale]
  · rw [daily_closed]
    norm_num [dailyContrib, rowDate, getNum, take_ten_date,
      List.filterMap_cons, List.filterMap_nil]

/-- C9 amended: every day appearing on any input row has a `delivery`
entry in the daily mapping, and every day appearing on a sale row
additionally has `sales` and `ppvz` (remitted) entries; days seen only on
non-sale rows need not have `sales`/`ppvz` entries. -/
theorem C9_daily_coverage (rows : List LedgerRow) (d : String) :
    ((∃ r ∈ rows, rowDate r = d) →
      (analyze_report rows).daily d "delivery" ≠ none) ∧
    ((∃ r ∈ rows, rowDate r = d ∧ docType r = "Продажа") →
      (analyze_report rows).daily d "sales" ≠ none ∧
      (analyze_report rows).daily d "ppvz" ≠ none) := by
  constructor
  · rintro ⟨r, hr, hd⟩
    refine daily_mem_ne_none rows d "delivery" r hr ?_
    simp [dailyContrib, hd]
  · rintro ⟨r, hr, hd, hs⟩
    constructor
    · refine daily_mem_ne_none rows d "sales" r hr ?_
      simp [dailyContrib, hd, hs]
    · refine daily_mem_ne_none rows d "ppvz" r hr ?_
      simp [dailyContrib, hd, hs]

/-- C9 witness: a one-row sale input satisfies both hypotheses, and the
delivery and sales cells of its day are present. -/
theorem C9_daily_coverage_witness :
    (analyze_report [⟨some "Продажа", some 1000, some 800, none, none, none,
        none, none, some "2025-01-01", none, none⟩]).daily
      "2025-01-01" "delivery" ≠ none ∧
    (analyze_report [⟨some "Продажа", some 1000, some 800, none, none, none,
        none, none, some "2025-01-01", none, none⟩]).daily
      "2025-01-01" "sales" ≠ none :=
  ⟨(C9_daily_coverage _ "2025-01-01").1
    ⟨_, List.mem_singleton_self _, by decide⟩,
   ((C9_daily_coverage _ "2025-01-01").2
    ⟨_, List.mem_singleton_self _, by decide, by decide⟩).1⟩

/-- C10: an item identifier occurring only in sale records whose sale
identifier starts with neither "S" nor "R" still gets an entry in the
mapping returned by `analyze_positions` (the name assignment materialises
it), with all counters and the revenue equal to zero. -/
theorem C10_unclassified_sale_present (orders : List OrderRec)
    (sales : List SaleRec) (nm : String)
    (hord : ∀ o ∈ orders, orderKey o ≠ nm)
    (hsale : ∀ s ∈ sales, saleKey s = nm →
      ¬strStartsWith (s.saleID.getD "") "S" ∧
      ¬strStartsWith (s.saleID.getD "") "R")
    (hmem : ∃ s ∈ sales, saleKey s = nm) :
    ∃ p : Position, analyze_positions orders sales nm = some p ∧
      p.ordered = 0 ∧ p.sold = 0 ∧ p.cancelled = 0 ∧ p.returned = 0 ∧
      p.revenue = 0 := by
  have h0 : (orders.foldl orderStep (fun _ => none)) nm = none :=
    foldl_orderStep_other nm orders hord _
  have hc := foldl_saleStep_ctrs nm sales hsale
    (orders.foldl orderStep (fun _ => none))
  rw [h0] at hc
  have hp : (sales.foldl saleStep (orders.foldl orderStep (fun _ => none))) nm
      ≠ none :=
    foldl_saleStep_mem nm sales _ (Or.inr hmem)
  cases hq : (sales.foldl saleStep (orders.foldl orderStep (fun _ => none))) nm with
  | none => exact absurd hq hp
  | some p =>
      rw [hq] at hc
      simp [ctrs, zeroPos] at hc
      exact ⟨p, hq, hc.1, hc.2.1, hc.2.2.1, hc.2.2.2.1, hc.2.2.2.2⟩

/-- C10 witness: one sale of item "7" with sale identifier "X1" (neither
"S" nor "R") and no orders produce a zero-counter entry for "7". -/
theorem C10_unclassified_sale_present_witness :
    ∃ p : Position,
      analyze_positions [] [⟨some "7", none, some "X1", none⟩] "7" = some p ∧
      p.ordered = 0 ∧ p.sold = 0 ∧ p.cancelled = 0 ∧ p.returned = 0 ∧
      p.revenue = 0 :=
  C10_unclassified_sale_present [] [⟨some "7", none, some "X1", none⟩] "7"
    (fun o ho => absurd ho (List.not_mem_nil o))
    (by
      intro s hs hk
      rw [List.mem_singleton] at hs
      subst hs
      exact ⟨by decide, by decide⟩)
    ⟨⟨some "7", none, some "X1", none⟩, List.mem_singleton_self _, by decide⟩
